import Mathlib

/-!
Verification development for the OneStrike HTTP routing and middleware
library.  The Go sources are shallowly embedded: strings are Lean strings,
Go maps over string keys are association lists with replace-or-append
insertion, the HTTP response writer is a small state record, and handlers
are state-passing functions.  Definitions mirror the Go functions they are
named after; definitions whose name starts with "spec" restate sentences of
the design document and are compared with the code-derived definitions.
-/

/-! ## String helpers (models of the Go strings package calls used) -/

/-- Model of strings.Split(s, "/") restricted to the single-character
separator, over the character list of the string. -/
def splitSegsAux : List Char → List Char → List (List Char)
  | [], acc => [acc.reverse]
  | c :: cs, acc =>
      if c = '/' then acc.reverse :: splitSegsAux cs []
      else splitSegsAux cs (c :: acc)

/-- Model of strings.Split(s, "/"): the slash-delimited segments of s. -/
def splitSegs (s : String) : List String :=
  (splitSegsAux s.data []).map (fun l => String.mk l)

/-- Model of strings.HasPrefix(s, ":") applied to a pattern segment. -/
def startsWithColon (s : String) : Bool :=
  match s.data with
  | [] => false
  | c :: _ => c = ':'

/-- Model of the Go slice expression s[1:] on a segment known to begin
with a one-byte rune (the colon). -/
def dropFirst (s : String) : String :=
  String.mk s.data.tail

/-- Model of strings.HasPrefix(s, p): does p occur at the start of s? -/
def strHasPfx (s p : String) : Bool :=
  p.data.isPrefixOf s.data

/-- Model of strings.TrimSuffix(s, "*"): remove one trailing star when
present. -/
def trimSuffixStar (s : String) : String :=
  if s.data.getLast? = some '*' then String.mk s.data.dropLast else s

/-- Model of strings.Contains(s, sub) over character lists. -/
def strContainsAux (sub : List Char) : List Char → Bool
  | [] => sub.isPrefixOf []
  | c :: cs => sub.isPrefixOf (c :: cs) || strContainsAux sub cs

/-- Model of strings.Contains(s, sub). -/
def strContains (s sub : String) : Bool :=
  strContainsAux sub.data s.data

/-! ## Go map[string]string model: association list with
replace-or-append insertion, mirroring map assignment and lookup. -/

/-- Model of Go map assignment m[k] = v: replace the binding in place
when the key is present, append it otherwise. -/
def mapSet : List (String × String) → String → String → List (String × String)
  | [], k, v => [(k, v)]
  | kv :: m, k, v => if kv.1 = k then (k, v) :: m else kv :: mapSet m k v

/-- Model of the comma-ok Go map read: the value bound to k, if any. -/
def mapGetO : List (String × String) → String → Option String
  | [], _ => none
  | kv :: m, k => if kv.1 = k then some kv.2 else mapGetO m k

/-- Model of the plain Go map read m[k]: zero value on a missing key. -/
def mapGet (m : List (String × String)) (k : String) : String :=
  (mapGetO m k).getD ""

/-! ## Router (src/server/server.go) -/

/-- Translation of the route struct: method, path pattern and handler.
The handler type is a parameter so that router theorems can be
instantiated with concrete comparable handlers. -/
structure Route (H : Type) where
  Method : String
  Path : String
  Handler : H

/-- Translation of the Router struct: the ordered list of registered
routes. -/
structure Router (H : Type) where
  routes : List (Route H)

/-- Translation of Router.Handle: append a route. -/
def Router.Handle {H : Type} (r : Router H) (method path : String) (handler : H) : Router H :=
  ⟨r.routes ++ [⟨method, path, handler⟩]⟩

/-- Translation of the per-route segment loop inside Router.FindHandler:
walk the pattern segments and the path segments in lockstep, capturing
parameter segments into the accumulated map and requiring literal
segments to be equal.  A length mismatch (the pre-loop length check in
the Go code) and a literal mismatch both yield none. -/
def matchParts : List String → List String → List (String × String) → Option (List (String × String))
  | [], [], params => some params
  | rp :: rps, pp :: pps, params =>
      if startsWithColon rp then matchParts rps pps (mapSet params (dropFirst rp) pp)
      else if rp = pp then matchParts rps pps params
      else none
  | _, _, _ => none

/-- Translation of the route-list scan of Router.FindHandler: skip routes
whose method differs, try the segment match on the rest, return the first
success, and (nil, nil) when the list is exhausted. -/
def findLoop {H : Type} : List (Route H) → String → String → Option H × Option (List (String × String))
  | [], _, _ => (none, none)
  | rt :: rts, method, path =>
      if rt.Method = method then
        match matchParts (splitSegs rt.Path) (splitSegs path) [] with
        | some params => (some rt.Handler, some params)
        | none => findLoop rts method path
      else findLoop rts method path

/-- Translation of Router.FindHandler.  The two Go return values are a
pair of options: (none, none) models the (nil, nil) no-match result. -/
def Router.FindHandler {H : Type} (r : Router H) (method path : String) :
    Option H × Option (List (String × String)) :=
  findLoop r.routes method path

/-! ## Spec-side restatements of the matching contract (section 4.1 and
section 8 of the design document), used to compare against FindHandler. -/

/-- Spec wording: a pattern segment beginning with a colon matches any
path segment; any other pattern segment must be byte-equal. -/
def specSegMatch (rp pp : String) : Bool :=
  startsWithColon rp || rp == pp

/-- Spec wording: a route structurally matches an input when the method
strings are equal, the segment counts are equal, and every segment pair
satisfies the segment-match rule. -/
def specStructMatch {H : Type} (rt : Route H) (method path : String) : Bool :=
  rt.Method == method &&
  (splitSegs rt.Path).length == (splitSegs path).length &&
  ((splitSegs rt.Path).zip (splitSegs path)).all (fun ab => specSegMatch ab.1 ab.2)

/-- Spec wording: the name-to-value bindings contributed by the pattern,
one per colon segment, in segment order. -/
def specBindings (pattern path : String) : List (String × String) :=
  ((splitSegs pattern).zip (splitSegs path)).filterMap
    (fun ab => if startsWithColon ab.1 then some (dropFirst ab.1, ab.2) else none)

/-- The value of the last binding of a key in a binding list; this is the
reference meaning of folding Go map assignments over the bindings. -/
def lastValue : List (String × String) → String → Option String
  | [], _ => none
  | kv :: bs, k =>
      match lastValue bs k with
      | some v => some v
      | none => if kv.1 = k then some kv.2 else none

/-- Folding Go map assignment over a binding list. -/
def bindAll (m : List (String × String)) (bs : List (String × String)) : List (String × String) :=
  bs.foldl (fun a kv => mapSet a kv.1 kv.2) m

/-! ## Response envelope and response-writer model -/

/-- Translation of the Response struct (src/server/types.go).  The open
Details field is modelled as an optional opaque string payload. -/
structure Response where
  Success : Bool
  Message : String
  Details : Option String
  Code : Int
deriving DecidableEq

/-- A unit of body output: either raw bytes written directly, or the
JSON encoding of a response envelope (serialization itself is an external
collaborator, so the envelope is kept abstract in the trace). -/
inductive Chunk where
  | raw (s : String)
  | json (r : Response)
deriving DecidableEq

/-- Model of the http.ResponseWriter as seen on the wire: a header map
being assembled, the committed status and header snapshot once
WriteHeader has run, and the ordered body trace. -/
structure RespWriter where
  pending : List (String × String)
  status : Option Int
  sentHeaders : List (String × String)
  body : List Chunk
deriving DecidableEq

/-- Model of Writer.Header().Set(k, v). -/
def RespWriter.setHeader (w : RespWriter) (k v : String) : RespWriter :=
  { w with pending := mapSet w.pending k v }

/-- Model of Writer.WriteHeader(code): the first call commits the status
and the current headers; later calls are no-ops. -/
def RespWriter.writeHeader (w : RespWriter) (code : Int) : RespWriter :=
  match w.status with
  | some _ => w
  | none => { w with status := some code, sentHeaders := w.pending }

/-- Model of Writer.Write / Encoder.Encode: an implicit WriteHeader(200)
when nothing is committed yet, then append the chunk to the body. -/
def RespWriter.write (w : RespWriter) (ch : Chunk) : RespWriter :=
  let w2 := w.writeHeader 200
  { w2 with body := w2.body ++ [ch] }

/-- The empty writer handed to a request. -/
def freshWriter : RespWriter := ⟨[], none, [], []⟩

/-- Model of http.NotFound(w, r): http.Error with the canonical 404 text. -/
def notFoundWrite (w : RespWriter) : RespWriter :=
  (((w.setHeader "Content-Type" "text/plain; charset=utf-8").setHeader
      "X-Content-Type-Options" "nosniff").writeHeader 404).write
    (Chunk.raw "404 page not found\n")

/-! ## Request context and handlers (src/server/types.go, util.go) -/

/-- Translation of the Context struct.  The request is flattened into its
method, URL path and header map; Params is optional to model the nil Go
map, and Handled is the single-write guard flag. -/
structure Ctx where
  Writer : RespWriter
  Method : String
  Path : String
  ReqHeaders : List (String × String)
  Params : Option (List (String × String))
  Handled : Bool
deriving DecidableEq

/-- The result of running a handler body: a normal return of the optional
response pointer, or a panic carrying the string form of the panic value. -/
inductive Outcome where
  | ok (r : Option Response)
  | panicked (v : String)

/-- Translation of server.HandlerFunc; the context is threaded explicitly
to model mutation through the shared pointer. -/
abbrev HandlerFunc := Ctx → Ctx × Outcome

/-- Translation of middleware.Middleware. -/
abbrev Middleware := HandlerFunc → HandlerFunc

/-- Translation of Context.writeResponse (src/server/util.go): no-op when
Handled is set, otherwise set the content type, commit the status, write
the body and mark the context handled. -/
def Ctx.writeResponse (c : Ctx) (code : Int) (contentType : String) (body : String) : Ctx :=
  if c.Handled then c
  else
    { c with
      Writer := ((c.Writer.setHeader "Content-Type" contentType).writeHeader code).write
        (Chunk.raw body),
      Handled := true }

/-- Translation of Context.String (renamed: the name String would shadow the string type inside the Ctx namespace): plain-text write plus envelope. -/
def Ctx.StringResp (c : Ctx) (code : Int) (s : String) : Ctx × Response :=
  (c.writeResponse code "text/plain" s, ⟨true, s, none, code⟩)

/-- Translation of Context.HTML. -/
def Ctx.HTML (c : Ctx) (code : Int) (html : String) : Ctx × Response :=
  (c.writeResponse code "text/html" html, ⟨true, "HTML written", none, code⟩)

/-- Translation of Context.Blob. -/
def Ctx.Blob (c : Ctx) (code : Int) (data : String) (contentType : String) : Ctx × Response :=
  (c.writeResponse code contentType data, ⟨true, "Blob written", none, code⟩)

/-- Translation of the four-argument Context.JSON (src/server/util.go):
guarded by Handled, writes the envelope as JSON and marks the context. -/
def Ctx.JSON (c : Ctx) (success : Bool) (message : String) (details : Option String) (code : Int) :
    Ctx × Response :=
  let resp : Response := ⟨success, message, details, code⟩
  if c.Handled then (c, resp)
  else
    ({ c with
        Writer := ((c.Writer.setHeader "Content-Type" "application/json").writeHeader code).write
          (Chunk.json resp),
        Handled := true },
      resp)

/-- Translation of Context.ErrorJSON (src/server/util.go). -/
def Ctx.ErrorJSON (c : Ctx) (message : String) (details : Option String) (code : Int) :
    Ctx × Response :=
  let resp : Response := ⟨false, message, details, code⟩
  if c.Handled then (c, resp)
  else
    ({ c with
        Writer := ((c.Writer.setHeader "Content-Type" "application/json").writeHeader code).write
          (Chunk.json resp),
        Handled := true },
      resp)

/-- Translation of Context.Redirect (src/server/util.go). -/
def Ctx.Redirect (c : Ctx) (code : Int) (location : String) : Ctx × Response :=
  if c.Handled then (c, ⟨false, "Response already handled", none, code⟩)
  else
    ({ c with
        Writer := (c.Writer.setHeader "Location" location).writeHeader code,
        Handled := true },
      ⟨true, "Redirected to " ++ location, none, code⟩)

/-- Translation of Context.File (src/server/util.go).  Reading from disk
and sniffing the content type are external collaborators, passed in as
the functions fs and detect. -/
def Ctx.File (fs : String → Option String) (detect : String → String) (c : Ctx)
    (filePath : String) : Ctx × Response :=
  if c.Handled then (c, ⟨false, "Response already handled", none, 500⟩)
  else
    match fs filePath with
    | none => (c, ⟨false, "File not found", none, 404⟩)
    | some data =>
        (c.writeResponse 200 (detect data) data, ⟨true, "Served file: " ++ filePath, none, 200⟩)

/-- Translation of the two-argument Context.JSON of src/server/server.go
(the variant called by the Recovery middleware): an unguarded JSON write
that does not touch the Handled flag. -/
def Ctx.JSONResp (c : Ctx) (code : Int) (resp : Response) : Ctx :=
  { c with
    Writer := ((c.Writer.setHeader "Content-Type" "application/json").writeHeader code).write
      (Chunk.json resp) }

/-- Translation of Context.Param (the unnamed context helpers file):
empty string on a nil map or a missing key. -/
def Ctx.Param (c : Ctx) (name : String) : String :=
  match c.Params with
  | none => ""
  | some m => mapGet m name

/-! ## Middleware (src/middleware/middleware.go) -/

/-- Translation of the Recovery middleware: pass normal returns through;
on a panic, when the context is not yet handled write a single 500
response, as HTML when the Accept header contains text/html and as a
JSON envelope embedding the panic text otherwise; when the context is
already handled, only log (a model no-op).  After recovering, the Go
wrapper returns the zero response pointer, modelled as ok none. -/
def Recovery : Middleware := fun next c =>
  match next c with
  | (c', Outcome.ok r) => (c', Outcome.ok r)
  | (c', Outcome.panicked v) =>
      if c'.Handled then (c', Outcome.ok none)
      else if strContains (mapGet c'.ReqHeaders "Accept") "text/html" then
        ((Ctx.HTML c' 500 "<h1>500 Internal Server Error</h1>").1, Outcome.ok none)
      else
        (Ctx.JSONResp c' 500 ⟨false, "Internal Server Error", some v, 500⟩, Outcome.ok none)

/-- Translation of middleware.ConditionalMiddleware; Mw is the Go field
named Middleware. -/
structure ConditionalMiddleware where
  Pattern : String
  Mw : Middleware

/-! ## Server and dispatch (src/unnamed/part_000, src/group.go) -/

/-- Translation of the descending-index wrap loops of Server.Handle and
Group.Handle: wrap the handler so that the first list element ends up
outermost. -/
def applyReversed (ms : List Middleware) (h : HandlerFunc) : HandlerFunc :=
  ms.foldr (fun m acc => m acc) h

/-- Translation of the conditional-middleware loop of Server.ServeHTTP:
scan registrations in order and wrap the accumulator whenever the
pattern, with a trailing star trimmed, is a prefix of the request path. -/
def condCompose (cms : List ConditionalMiddleware) (path : String) (h : HandlerFunc) :
    HandlerFunc :=
  cms.foldl
    (fun acc cm => if strHasPfx path (trimSuffixStar cm.Pattern) then cm.Mw acc else acc) h

/-- Translation of the OneStrike Server struct. -/
structure Server where
  router : Router HandlerFunc
  middlewares : List Middleware
  conditionalMiddleware : List ConditionalMiddleware

/-- Translation of onestrike.New. -/
def Server.New : Server := ⟨⟨[]⟩, [], []⟩

/-- Translation of Server.Use. -/
def Server.Use (s : Server) (mw : Middleware) : Server :=
  { s with middlewares := s.middlewares ++ [mw] }

/-- Translation of Server.UseIf. -/
def Server.UseIf (s : Server) (pattern : String) (mw : Middleware) : Server :=
  { s with conditionalMiddleware := s.conditionalMiddleware ++ [⟨pattern, mw⟩] }

/-- Translation of Server.Handle: bake the global middlewares around the
handler at registration time, first-registered outermost. -/
def Server.Handle (s : Server) (method path : String) (handler : HandlerFunc) : Server :=
  { s with router := s.router.Handle method path (applyReversed s.middlewares handler) }

/-- Translation of the Group struct (src/type.go), named GroupM to avoid the algebraic Group of the library; PrefixPath is the Go
field named Prefix, and the back-reference to the parent server is passed
explicitly to Group.Handle instead of being stored. -/
structure GroupM where
  PrefixPath : String
  Middlewares : List Middleware

/-- Translation of Server.Group. -/
def Server.Group (_s : Server) (pfx : String) : GroupM :=
  ⟨pfx, []⟩

/-- Translation of Group.Use. -/
def GroupM.Use (g : GroupM) (mw : Middleware) : GroupM :=
  { g with Middlewares := g.Middlewares ++ [mw] }

/-- Translation of Group.Handle (src/group.go): prepend the group prefix,
wrap with the server-level middlewares first and the group middlewares
after (so the group middlewares end up outermost), and register the
combined handler in the shared router. -/
def GroupM.Handle (g : GroupM) (s : Server) (method path : String) (handler : HandlerFunc) :
    Server :=
  let fullPath := g.PrefixPath ++ path
  let combined := applyReversed g.Middlewares (applyReversed s.middlewares handler)
  { s with router := s.router.Handle method fullPath combined }

/-- Translation of Server.ServeHTTP (src/unnamed/part_000): build a fresh
context, resolve the route (404 on a miss), bind the parameters, apply
the matching conditional middlewares, run the composed handler, and when
it returns a non-nil response write it as JSON; note that this final
write is not guarded by the Handled flag in the source. -/
def Server.ServeHTTP (s : Server) (w : RespWriter) (method path : String)
    (reqHeaders : List (String × String)) : RespWriter :=
  let c : Ctx := ⟨w, method, path, reqHeaders, none, false⟩
  match s.router.FindHandler method path with
  | (none, _) => notFoundWrite w
  | (some handler, params) =>
      let c2 := { c with Params := params }
      let final := condCompose s.conditionalMiddleware path handler
      match final c2 with
      | (c', Outcome.ok (some resp)) =>
          ((c'.Writer.setHeader "Content-Type" "application/json").writeHeader resp.Code).write
            (Chunk.json resp)
      | (c', Outcome.ok none) => c'.Writer
      | (c', Outcome.panicked _) => c'.Writer

/-! ## Auxiliary recursive forms of the spec-side matching contract,
used as induction-friendly bridges in the proofs. -/

/-- Segment-pair recursion form of the structural segment check; proved
equal to the zip-and-all form of specStructMatch below. -/
def specSegsMatch : List String → List String → Bool
  | [], [] => true
  | rp :: rps, pp :: pps => specSegMatch rp pp && specSegsMatch rps pps
  | _, _ => false

/-- Segment-pair recursion form of the binding list; proved equal to the
filterMap form of specBindings below. -/
def specBinds : List String → List String → List (String × String)
  | rp :: rps, pp :: pps =>
      if startsWithColon rp then (dropFirst rp, pp) :: specBinds rps pps
      else specBinds rps pps
  | _, _ => []

/-! ## Concrete fixtures for witnesses and counterexamples -/

/-- A middleware that stamps entry and exit markers into the body trace,
the model analogue of the header side-effects the design document uses to
observe middleware ordering. -/
def tagMW (name : String) : Middleware := fun next c =>
  let c1 := { c with Writer := c.Writer.write (Chunk.raw ("in:" ++ name)) }
  let r := next c1
  ({ r.1 with Writer := r.1.Writer.write (Chunk.raw ("out:" ++ name)) }, r.2)

/-- A handler that stamps a marker and returns no response. -/
def tagHandler : HandlerFunc := fun c =>
  ({ c with Writer := c.Writer.write (Chunk.raw "h") }, Outcome.ok none)

/-- A handler in the style of the repository example application: it
writes HTML through the context helper and returns the helper response. -/
def htmlHandler : HandlerFunc := fun c =>
  let r := Ctx.HTML c 200 "<h1>Hi</h1>"
  (r.1, Outcome.ok (some r.2))

/-- Server fixture for the dispatcher no-handled-check demonstration:
one HTML-writing route, no middleware. -/
def cServer2 : Server := ⟨⟨[⟨"GET", "/html", htmlHandler⟩]⟩, [], []⟩

/-- Server fixture for the group-ordering counterexample: global tag
middlewares A and B, a group with tag middleware C, one grouped route. -/
def cServer3 : Server :=
  GroupM.Handle ⟨"/api", [tagMW "C"]⟩ ⟨⟨[]⟩, [tagMW "A", tagMW "B"], []⟩ "GET" "/t" tagHandler

/-- A trivial handler used in router-level witnesses. -/
def nilHandler : HandlerFunc := fun c => (c, Outcome.ok none)

/-- Server fixture for the 404 witness: a single GET route. -/
def cServer8 : Server := ⟨⟨[⟨"GET", "/users", nilHandler⟩]⟩, [], []⟩

/-- A handler that only panics, for the Recovery witness. -/
def panicHandler : HandlerFunc := fun c => (c, Outcome.panicked "boom")

/-- A context whose Handled flag is already set, for the write-guard
witness. -/
def handledCtx : Ctx := ⟨freshWriter, "GET", "/", [], none, true⟩

/-- A fresh unhandled context, for the Recovery witness. -/
def freshCtx : Ctx := ⟨freshWriter, "GET", "/", [], some [], false⟩

/-- Router fixture for the first-match witness. -/
def cRouter1 : Router Nat := ⟨[⟨"GET", "/a", 7⟩, ⟨"GET", "/users/:id", 3⟩]⟩

/-- Router fixture for the shape-mismatch part of the no-match witness. -/
def cRouter4 : Router Nat := ⟨[⟨"GET", "/users/:id", 1⟩]⟩

/-- Router fixture for the zero-parameter-match part of the no-match
witness. -/
def cRouter4b : Router Nat := ⟨[⟨"GET", "/ping", 5⟩]⟩

/-- Context fixture with a bound parameter map. -/
def paramCtx : Ctx := ⟨freshWriter, "GET", "/", [], some [("id", "123")], false⟩

/-- Context fixture with the nil parameter map. -/
def nilParamCtx : Ctx := ⟨freshWriter, "GET", "/", [], none, false⟩

/-! ## Lemmas about the map model -/

/-- Lookup after Go map assignment: the assigned key reads back the new
value, every other key is unaffected. -/
theorem mapGetO_mapSet (m : List (String × String)) (k v k' : String) :
    mapGetO (mapSet m k v) k' = if k = k' then some v else mapGetO m k' := by
  induction m with
  | nil => simp [mapSet, mapGetO]
  | cons kv m ih =>
      by_cases h1 : kv.1 = k
      · by_cases h2 : k = k' <;> simp [mapSet, mapGetO, h1, h2]
      · by_cases h2 : kv.1 = k'
        · have h3 : ¬ k = k' := fun e => h1 (e ▸ h2)
          have h4 : ¬ k' = k := fun e => h3 e.symm
          simp [mapSet, mapGetO, h1, h2, h3, h4]
        · simp [mapSet, mapGetO, h1, h2, ih]

/-- Go map assignment never yields the empty map. -/
theorem mapSet_ne_nil (m : List (String × String)) (k v : String) :
    mapSet m k v ≠ [] := by
  cases m with
  | nil => simp [mapSet]
  | cons kv m => by_cases h : kv.1 = k <;> simp [mapSet, h]

/-- Folding assignments over a binding list: a key reads back the last
binding in the list, falling back to the initial map. -/
theorem mapGetO_bindAll (bs : List (String × String)) (m : List (String × String)) (k : String) :
    mapGetO (bindAll m bs) k =
      match lastValue bs k with
      | some v => some v
      | none => mapGetO m k := by
  induction bs generalizing m with
  | nil => simp [bindAll, lastValue]
  | cons kv bs ih =>
      have hstep : bindAll m (kv :: bs) = bindAll (mapSet m kv.1 kv.2) bs := rfl
      rw [hstep, ih, mapGetO_mapSet]
      cases hlv : lastValue bs k with
      | some v => simp [lastValue, hlv]
      | none => by_cases hk : kv.1 = k <;> simp [lastValue, hlv, hk]

/-- Folding assignments over a nonempty binding list starting from any
map yields a nonempty map. -/
theorem bindAll_ne_nil (bs : List (String × String)) (m : List (String × String))
    (hm : m ≠ []) : bindAll m bs ≠ [] := by
  induction bs generalizing m with
  | nil => simpa [bindAll] using hm
  | cons kv bs ih =>
      have hstep : bindAll m (kv :: bs) = bindAll (mapSet m kv.1 kv.2) bs := rfl
      rw [hstep]
      exact ih _ (mapSet_ne_nil _ _ _)

/-- The parameter map built from the empty map is empty exactly when the
binding list is empty. -/
theorem bindAll_nil_iff (bs : List (String × String)) :
    bindAll [] bs = [] ↔ bs = [] := by
  cases bs with
  | nil => simp [bindAll]
  | cons kv bs =>
      constructor
      · intro h
        have hstep : bindAll [] (kv :: bs) = bindAll (mapSet [] kv.1 kv.2) bs := rfl
        rw [hstep] at h
        exact absurd h (bindAll_ne_nil _ _ (mapSet_ne_nil _ _ _))
      · intro h
        exact absurd h (by simp)

/-! ## Lemmas about segment matching -/

/-- The segment loop of FindHandler succeeds exactly on structurally
matching segment lists and then returns the folded bindings. -/
theorem matchParts_eq (rps pps : List String) (acc : List (String × String)) :
    matchParts rps pps acc =
      if specSegsMatch rps pps = true then some (bindAll acc (specBinds rps pps))
      else none := by
  induction rps generalizing pps acc with
  | nil =>
      cases pps with
      | nil => simp [matchParts, specSegsMatch, specBinds, bindAll]
      | cons pp pps => simp [matchParts, specSegsMatch]
  | cons rp rps ih =>
      cases pps with
      | nil => simp [matchParts, specSegsMatch]
      | cons pp pps =>
          cases hc : startsWithColon rp with
          | true =>
              have hseg : specSegMatch rp pp = true := by simp [specSegMatch, hc]
              have hbinds : specBinds (rp :: rps) (pp :: pps)
                  = (dropFirst rp, pp) :: specBinds rps pps := by simp [specBinds, hc]
              have hba : bindAll acc ((dropFirst rp, pp) :: specBinds rps pps)
                  = bindAll (mapSet acc (dropFirst rp) pp) (specBinds rps pps) := rfl
              simp [matchParts, hc, ih, specSegsMatch, hseg, hbinds, hba]
          | false =>
              by_cases he : rp = pp
              · subst he
                simp [matchParts, hc, ih, specSegsMatch, specSegMatch, specBinds]
              · have hseg : specSegMatch rp pp = false := by
                  simp [specSegMatch, hc, he]
                simp [matchParts, hc, he, specSegsMatch, hseg]

/-- The recursive segment check agrees with the zip-and-all spec form. -/
theorem specSegsMatch_eq (rps pps : List String) :
    specSegsMatch rps pps =
      ((rps.length == pps.length) &&
        (rps.zip pps).all (fun ab => specSegMatch ab.1 ab.2)) := by
  induction rps generalizing pps with
  | nil => cases pps <;> simp [specSegsMatch]
  | cons rp rps ih =>
      cases pps with
      | nil => simp [specSegsMatch]
      | cons pp pps =>
          cases hm : specSegMatch rp pp <;>
            simp [specSegsMatch, hm, ih, Bool.and_comm, Bool.and_assoc, Bool.and_left_comm]

/-- The recursive binding list agrees with the zip-and-filterMap spec
form. -/
theorem specBinds_eq (rps pps : List String) :
    specBinds rps pps =
      (rps.zip pps).filterMap
        (fun ab => if startsWithColon ab.1 then some (dropFirst ab.1, ab.2) else none) := by
  induction rps generalizing pps with
  | nil => cases pps <;> simp [specBinds]
  | cons rp rps ih =>
      cases pps with
      | nil => simp [specBinds]
      | cons pp pps => cases hc : startsWithColon rp <;> simp [specBinds, hc, ih]

/-- Structural match unfolded through the recursive segment check. -/
theorem specStructMatch_eq {H : Type} (rt : Route H) (method path : String) :
    specStructMatch rt method path =
      ((rt.Method == method) && specSegsMatch (splitSegs rt.Path) (splitSegs path)) := by
  simp [specStructMatch, specSegsMatch_eq, Bool.and_assoc]

/-- Under an equal segment count, an empty binding list means the pattern
has no parameter segment at all. -/
theorem specBinds_nil_no_colon (rps pps : List String) (hlen : rps.length = pps.length)
    (h : specBinds rps pps = []) : rps.all (fun sg => !startsWithColon sg) = true := by
  induction rps generalizing pps with
  | nil => simp
  | cons rp rps ih =>
      cases pps with
      | nil => exact absurd hlen (by simp)
      | cons pp pps =>
          cases hc : startsWithColon rp with
          | true => simp [specBinds, hc] at h
          | false =>
              simp [specBinds, hc] at h
              have := ih pps (by simpa using hlen) h
              simp [hc, this]

/-! ## Lemmas about the route scan -/

/-- A route that does not structurally match is skipped by the scan. -/
theorem findLoop_cons_of_no_match {H : Type} (p : Route H) (l : List (Route H))
    (method path : String) (h : specStructMatch p method path = false) :
    findLoop (p :: l) method path = findLoop l method path := by
  rw [specStructMatch_eq] at h
  by_cases hm : p.Method = method
  · have hseg : specSegsMatch (splitSegs p.Path) (splitSegs path) = false := by
      simpa [hm] using h
    simp [findLoop, hm, matchParts_eq, hseg]
  · simp [findLoop, hm]

/-- The scan returns the first structurally matching route together with
the folded parameter bindings of that route. -/
theorem findLoop_first {H : Type} (method path : String) (pre : List (Route H)) (rt : Route H)
    (post : List (Route H)) (hpre : ∀ rt' ∈ pre, specStructMatch rt' method path = false)
    (hrt : specStructMatch rt method path = true) :
    findLoop (pre ++ rt :: post) method path
      = (some rt.Handler, some (bindAll [] (specBinds (splitSegs rt.Path) (splitSegs path)))) := by
  induction pre with
  | nil =>
      rw [specStructMatch_eq] at hrt
      simp only [Bool.and_eq_true, beq_iff_eq] at hrt
      simp [findLoop, hrt.1, matchParts_eq, hrt.2]
  | cons p pre ih =>
      rw [List.cons_append, findLoop_cons_of_no_match p _ method path (hpre p (by simp))]
      exact ih (fun rt' hmem => hpre rt' (by simp [hmem]))

/-- The scan yields the distinguished (nil, nil) result exactly when no
registered route structurally matches. -/
theorem findLoop_none_iff {H : Type} (rts : List (Route H)) (method path : String) :
    findLoop rts method path = (none, none) ↔
      ∀ rt ∈ rts, specStructMatch rt method path = false := by
  induction rts with
  | nil => simp [findLoop]
  | cons rt rts ih =>
      cases hsm : specStructMatch rt method path with
      | false =>
          rw [findLoop_cons_of_no_match rt rts method path hsm, ih]
          simp [hsm]
      | true =>
          rw [specStructMatch_eq] at hsm
          simp only [Bool.and_eq_true, beq_iff_eq] at hsm
          have h1 : findLoop (rt :: rts) method path
              = (some rt.Handler,
                  some (bindAll [] (specBinds (splitSegs rt.Path) (splitSegs path)))) := by
            simp [findLoop, hsm.1, matchParts_eq, hsm.2]
          rw [h1]
          constructor
          · intro hcontra
            exact absurd hcontra (by simp)
          · intro hall
            have h2 := hall rt (by simp)
            rw [specStructMatch_eq] at h2
            simp [hsm.1, hsm.2] at h2
  
/-- A successful scan result comes from some structurally matching route,
and its parameter map is that route's folded bindings. -/
theorem findLoop_some {H : Type} (rts : List (Route H)) (method path : String) (h : H)
    (m : List (String × String)) (hf : findLoop rts method path = (some h, some m)) :
    ∃ rt ∈ rts, rt.Handler = h ∧ specStructMatch rt method path = true ∧
      m = bindAll [] (specBinds (splitSegs rt.Path) (splitSegs path)) := by
  induction rts with
  | nil => simp [findLoop] at hf
  | cons rt rts ih =>
      by_cases hm : rt.Method = method
      · cases hmp : matchParts (splitSegs rt.Path) (splitSegs path) [] with
        | some params =>
            have hstep : findLoop (rt :: rts) method path = (some rt.Handler, some params) := by
              simp [findLoop, hm, hmp]
            rw [hstep] at hf
            simp only [Prod.mk.injEq, Option.some.injEq] at hf
            rw [matchParts_eq] at hmp
            by_cases hseg : specSegsMatch (splitSegs rt.Path) (splitSegs path) = true
            · rw [if_pos hseg] at hmp
              refine ⟨rt, by simp, hf.1, ?_, ?_⟩
              · rw [specStructMatch_eq]
                simp [hm, hseg]
              · rw [← hf.2]
                exact (Option.some.injEq _ _ ▸ hmp).symm
            · rw [if_neg hseg] at hmp
              exact absurd hmp (by simp)
        | none =>
            have hskip : findLoop (rt :: rts) method path = findLoop rts method path := by
              simp [findLoop, hm, hmp]
            rw [hskip] at hf
            obtain ⟨rt', hmem, rest⟩ := ih hf
            exact ⟨rt', by simp [hmem], rest⟩
      · have hskip : findLoop (rt :: rts) method path = findLoop rts method path := by
          simp [findLoop, hm]
        rw [hskip] at hf
        obtain ⟨rt', hmem, rest⟩ := ih hf
        exact ⟨rt', by simp [hmem], rest⟩

/-! ## Lemmas about the writer model and traced middleware chains -/

/-- Committing a status does not change the body. -/
theorem writeHeader_body (w : RespWriter) (code : Int) :
    (w.writeHeader code).body = w.body := by
  rcases w with ⟨p, st, sh, b⟩
  cases st <;> rfl

/-- A write appends exactly one chunk to the body. -/
theorem write_body (w : RespWriter) (ch : Chunk) :
    (w.write ch).body = w.body ++ [ch] := by
  rcases w with ⟨p, st, sh, b⟩
  cases st <;> rfl

/-- Running a chain of tag middlewares around a handler that appends the
trace T and returns no response: the entry markers appear in list order
before T, the exit markers in reversed order after it, and the result is
still no response.  This captures entry and exit ordering of the
first-element-outermost wrap used at registration time. -/
theorem tagChain (names : List String) (h : HandlerFunc) (T : List Chunk)
    (hh : ∀ c, (h c).1.Writer.body = c.Writer.body ++ T ∧ (h c).2 = Outcome.ok none) :
    ∀ c, ((applyReversed (names.map tagMW) h) c).1.Writer.body
        = c.Writer.body ++ (names.map fun n => Chunk.raw ("in:" ++ n)) ++ T
          ++ (names.reverse.map fun n => Chunk.raw ("out:" ++ n))
      ∧ ((applyReversed (names.map tagMW) h) c).2 = Outcome.ok none := by
  induction names with
  | nil =>
      intro c
      have := hh c
      simpa [applyReversed] using this
  | cons n ns ih =>
      intro c
      obtain ⟨hb, ho⟩ := ih { c with Writer := c.Writer.write (Chunk.raw ("in:" ++ n)) }
      constructor
      · have e1 : ((applyReversed ((n :: ns).map tagMW) h) c).1.Writer
            = ((applyReversed (ns.map tagMW) h)
                { c with Writer := c.Writer.write (Chunk.raw ("in:" ++ n)) }).1.Writer.write
                (Chunk.raw ("out:" ++ n)) := rfl
        rw [e1, write_body, hb]
        simp [write_body, List.append_assoc]
      · exact ho

/-- Dispatch through a resolved route with no conditional middleware:
the outcome of the composed handler on the freshly bound context decides
what reaches the writer. -/
theorem ServeHTTP_run (s : Server) (w : RespWriter) (method path : String)
    (reqHeaders : List (String × String)) (h : HandlerFunc) (params : List (String × String))
    (hfind : s.router.FindHandler method path = (some h, some params))
    (hcond : s.conditionalMiddleware = []) :
    Server.ServeHTTP s w method path reqHeaders =
      (match h ⟨w, method, path, reqHeaders, some params, false⟩ with
        | (c', Outcome.ok (some resp)) =>
            ((c'.Writer.setHeader "Content-Type" "application/json").writeHeader
              resp.Code).write (Chunk.json resp)
        | (c', Outcome.ok none) => c'.Writer
        | (c', Outcome.panicked _) => c'.Writer) := by
  simp only [Server.ServeHTTP, hfind, hcond, condCompose, List.foldl]

/-- Shared characterization: the first structurally matching route wins
and each parameter name reads back the value of its last colon segment. -/
theorem FindHandler_first_aux {H : Type} (r : Router H) (method path : String)
    (pre : List (Route H)) (rt : Route H) (post : List (Route H))
    (hsplit : r.routes = pre ++ rt :: post)
    (hpre : ∀ rt' ∈ pre, specStructMatch rt' method path = false)
    (hrt : specStructMatch rt method path = true) :
    ∃ m, r.FindHandler method path = (some rt.Handler, some m) ∧
      ∀ k, mapGetO m k = lastValue (specBindings rt.Path path) k := by
  refine ⟨bindAll [] (specBinds (splitSegs rt.Path) (splitSegs path)), ?_, ?_⟩
  · show findLoop r.routes method path = _
    rw [hsplit]
    exact findLoop_first method path pre rt post hpre hrt
  · intro k
    rw [mapGetO_bindAll]
    have hb : specBindings rt.Path path = specBinds (splitSegs rt.Path) (splitSegs path) :=
      (specBinds_eq _ _).symm
    rw [hb]
    cases hlv : lastValue (specBinds (splitSegs rt.Path) (splitSegs path)) k <;>
      simp [hlv, mapGetO]

/-- C1 (amended): for every route list and input structurally matching
some route, FindHandler returns the handler of the first matching route
in registration order together with a parameter map in which every colon
name reads back the path segment of its last occurrence in the pattern
(so patterns with a repeated name keep only the last binding). -/
theorem FindHandler_first_match_lastBinding {H : Type} (r : Router H) (method path : String)
    (pre : List (Route H)) (rt : Route H) (post : List (Route H))
    (hsplit : r.routes = pre ++ rt :: post)
    (hpre : ∀ rt' ∈ pre, specStructMatch rt' method path = false)
    (hrt : specStructMatch rt method path = true) :
    ∃ m, r.FindHandler method path = (some rt.Handler, some m) ∧
      ∀ k, mapGetO m k = lastValue (specBindings rt.Path path) k :=
  FindHandler_first_aux r method path pre rt post hsplit hpre hrt

/-- C1 (counterexample): with the pattern /u/:x/:x and the path /u/a/b
the route structurally matches, the spec binding list contains the pair
(x, a), but the returned parameter map does not: it binds x to b.  So the
map does not contain exactly the binding of every colon segment. -/
theorem FindHandler_duplicate_param_counterexample :
    specStructMatch (⟨"GET", "/u/:x/:x", 0⟩ : Route Nat) "GET" "/u/a/b" = true ∧
    ("x", "a") ∈ specBindings "/u/:x/:x" "/u/a/b" ∧
    Router.FindHandler (⟨[⟨"GET", "/u/:x/:x", 0⟩]⟩ : Router Nat) "GET" "/u/a/b"
      = (some 0, some [("x", "b")]) ∧
    ¬ mapGetO [("x", "b")] "x" = some "a" := by decide

/-- C1 (witness): concrete first-match instance, with an earlier
registered non-matching route skipped. -/
theorem FindHandler_first_match_witness :
    ∃ m, Router.FindHandler cRouter1 "GET" "/users/42" = (some 3, some m) ∧
      ∀ k, mapGetO m k = lastValue (specBindings "/users/:id" "/users/42") k :=
  FindHandler_first_match_lastBinding cRouter1 "GET" "/users/42"
    [⟨"GET", "/a", 7⟩] ⟨"GET", "/users/:id", 3⟩ [] rfl (by decide) (by decide)

/-- C4: FindHandler returns the distinguished (nil, nil) result exactly
when no registered route structurally matches (including differing
segment counts and the empty route list), and whenever it returns a
handler with an empty parameter map, the matched pattern has no colon
segment at all. -/
theorem FindHandler_no_match_contract {H : Type} (r : Router H) (method path : String) :
    (r.FindHandler method path = (none, none) ↔
      ∀ rt ∈ r.routes, specStructMatch rt method path = false) ∧
    (∀ (h : H) (m : List (String × String)),
        r.FindHandler method path = (some h, some m) →
        ∃ rt ∈ r.routes, rt.Handler = h ∧ specStructMatch rt method path = true ∧
          (m = [] → (splitSegs rt.Path).all (fun sg => !startsWithColon sg) = true)) := by
  constructor
  · exact findLoop_none_iff r.routes method path
  · intro h m hf
    obtain ⟨rt, hmem, hh, hsm, hm2⟩ := findLoop_some r.routes method path h m hf
    refine ⟨rt, hmem, hh, hsm, ?_⟩
    intro hnil
    rw [hm2] at hnil
    have hbs := (bindAll_nil_iff _).mp hnil
    rw [specStructMatch_eq] at hsm
    simp only [Bool.and_eq_true, beq_iff_eq] at hsm
    have hsegs := hsm.2
    rw [specSegsMatch_eq] at hsegs
    simp only [Bool.and_eq_true, beq_iff_eq] at hsegs
    exact specBinds_nil_no_colon _ _ hsegs.1 hbs

/-- C4 (witness): a segment-count mismatch yields (nil, nil), and a
zero-parameter pattern yields the empty map from an actual match. -/
theorem FindHandler_no_match_contract_witness :
    Router.FindHandler cRouter4 "GET" "/users/1/extra" = (none, none) ∧
    ∃ rt ∈ cRouter4b.routes, rt.Handler = 5 ∧ specStructMatch rt "GET" "/ping" = true ∧
      (([] : List (String × String)) = [] →
        (splitSegs rt.Path).all (fun sg => !startsWithColon sg) = true) :=
  ⟨(FindHandler_no_match_contract cRouter4 "GET" "/users/1/extra").1.mpr (by decide),
    (FindHandler_no_match_contract cRouter4b "GET" "/ping").2 5 [] (by decide)⟩

/-- C9: in FindHandler a colon pattern segment matches any path segment
value, the empty string included, since only the literal segments are
constrained; and each parameter name reads back the value of its last
occurrence, earlier bindings being overwritten silently. -/
theorem FindHandler_param_segments_last_occurrence {H : Type} (rt : Route H)
    (method path : String) (hm : rt.Method = method)
    (hlen : (splitSegs rt.Path).length = (splitSegs path).length)
    (hlit : ∀ ab ∈ (splitSegs rt.Path).zip (splitSegs path),
        startsWithColon ab.1 = false → ab.1 = ab.2) :
    ∃ m, Router.FindHandler (⟨[rt]⟩ : Router H) method path = (some rt.Handler, some m) ∧
      ∀ k, mapGetO m k = lastValue (specBindings rt.Path path) k := by
  have hall : ((splitSegs rt.Path).zip (splitSegs path)).all
      (fun ab => specSegMatch ab.1 ab.2) = true := by
    rw [List.all_eq_true]
    intro ab hab
    cases hc : startsWithColon ab.1 with
    | true => simp [specSegMatch, hc]
    | false =>
        have := hlit ab hab hc
        simp [specSegMatch, this]
  have hsm : specStructMatch rt method path = true := by
    rw [specStructMatch_eq, specSegsMatch_eq]
    simp [hm, hlen, hall]
  exact FindHandler_first_aux ⟨[rt]⟩ method path [] rt [] rfl (by simp) hsm

/-- C9 (witness): the pattern /a/:x/:x matched against /a//b, where the
first occurrence of x matches the empty segment and the returned map
keeps only the last binding x to b. -/
theorem FindHandler_param_segments_witness :
    ∃ m, Router.FindHandler (⟨[⟨"GET", "/a/:x/:x", 5⟩]⟩ : Router Nat) "GET" "/a//b"
        = (some 5, some m) ∧
      ∀ k, mapGetO m k = lastValue (specBindings "/a/:x/:x" "/a//b") k :=
  FindHandler_param_segments_last_occurrence ⟨"GET", "/a/:x/:x", 5⟩ "GET" "/a//b" rfl
    (by decide) (by decide)

/-- C5: in the dispatch composition a conditional middleware wraps the
resolved handler exactly when its pattern with a trailing star stripped
is a string prefix of the request path; appending a registration wraps it
outermost when it fires, the composition only depends on the firing
registrations in order, and the concrete pattern /api/v1/* fires for
/api/v1/x and not for /public/x. -/
theorem conditional_middleware_contract :
    (∀ (cms : List ConditionalMiddleware) (cm : ConditionalMiddleware) (path : String)
        (h : HandlerFunc),
        condCompose (cms ++ [cm]) path h =
          if strHasPfx path (trimSuffixStar cm.Pattern) then cm.Mw (condCompose cms path h)
          else condCompose cms path h) ∧
    (∀ (cms : List ConditionalMiddleware) (path : String) (h : HandlerFunc),
        condCompose cms path h =
          condCompose (cms.filter (fun cm => strHasPfx path (trimSuffixStar cm.Pattern)))
            path h) ∧
    (strHasPfx "/api/v1/x" (trimSuffixStar "/api/v1/*") = true ∧
      strHasPfx "/public/x" (trimSuffixStar "/api/v1/*") = false) := by
  refine ⟨?_, ?_, by decide⟩
  · intro cms cm path h
    simp [condCompose, List.foldl_append]
  · intro cms path h
    induction cms generalizing h with
    | nil => simp [condCompose]
    | cons cm cms ih =>
        cases hfire : strHasPfx path (trimSuffixStar cm.Pattern) with
        | true =>
            have h1 : condCompose (cm :: cms) path h = condCompose cms path (cm.Mw h) := by
              simp [condCompose, hfire]
            have h2 : (cm :: cms).filter (fun cm => strHasPfx path (trimSuffixStar cm.Pattern))
                = cm :: cms.filter (fun cm => strHasPfx path (trimSuffixStar cm.Pattern)) := by
              simp [List.filter_cons, hfire]
            have h3 : condCompose
                (cm :: cms.filter (fun cm => strHasPfx path (trimSuffixStar cm.Pattern)))
                path h
                = condCompose (cms.filter (fun cm => strHasPfx path (trimSuffixStar cm.Pattern)))
                    path (cm.Mw h) := by
              simp [condCompose, hfire]
            rw [h1, h2, h3]
            exact ih (cm.Mw h)
        | false =>
            have h1 : condCompose (cm :: cms) path h = condCompose cms path h := by
              simp [condCompose, hfire]
            have h2 : (cm :: cms).filter (fun cm => strHasPfx path (trimSuffixStar cm.Pattern))
                = cms.filter (fun cm => strHasPfx path (trimSuffixStar cm.Pattern)) := by
              simp [List.filter_cons, hfire]
            rw [h1, h2]
            exact ih h

/-- C8: a request matching no registered route is answered by the
not-found write alone; the resulting writer is a function of the incoming
writer only, so no handler and no middleware ran, and a method mismatch
is reported through the same uniform not-found response. -/
theorem ServeHTTP_not_found (s : Server) (w : RespWriter) (method path : String)
    (reqHeaders : List (String × String))
    (hno : ∀ rt ∈ s.router.routes, specStructMatch rt method path = false) :
    Server.ServeHTTP s w method path reqHeaders = notFoundWrite w := by
  have hfind : s.router.FindHandler method path = (none, none) :=
    (findLoop_none_iff _ _ _).mpr hno
  simp only [Server.ServeHTTP, hfind]

/-- C8 (witness): a server exposing only GET /users answers POST /users
with the not-found write. -/
theorem ServeHTTP_not_found_witness :
    Server.ServeHTTP cServer8 freshWriter "POST" "/users" [] = notFoundWrite freshWriter :=
  ServeHTTP_not_found cServer8 freshWriter "POST" "/users" [] (by decide)

/-- C10: Context.Param is total: it yields the empty string on a nil
parameter map and on an unbound name, and the bound value otherwise. -/
theorem Param_total_contract (c : Ctx) (name : String) :
    (c.Params = none → c.Param name = "") ∧
    (∀ m, c.Params = some m → mapGetO m name = none → c.Param name = "") ∧
    (∀ m v, c.Params = some m → mapGetO m name = some v → c.Param name = v) := by
  refine ⟨?_, ?_, ?_⟩
  · intro h
    simp [Ctx.Param, h]
  · intro m h hm
    simp [Ctx.Param, h, mapGet, hm]
  · intro m v h hm
    simp [Ctx.Param, h, mapGet, hm]

/-- C10 (witness): nil map, unbound name and bound name instances. -/
theorem Param_total_contract_witness :
    nilParamCtx.Param "id" = "" ∧ paramCtx.Param "q" = "" ∧ paramCtx.Param "id" = "123" :=
  ⟨(Param_total_contract nilParamCtx "id").1 rfl,
    (Param_total_contract paramCtx "q").2.1 [("id", "123")] rfl (by decide),
    (Param_total_contract paramCtx "id").2.2 [("id", "123")] "123" rfl (by decide)⟩

/-- C2 (code evaluation at the failing input): a handler writes HTML
through the context helper, which sets the Handled flag, and returns the
helper response; the dispatcher nevertheless appends the JSON envelope
to the already written body, because the final write in ServeHTTP is not
guarded by the Handled flag. -/
theorem ServeHTTP_writes_despite_handled :
    (htmlHandler ⟨freshWriter, "GET", "/html", [], some [], false⟩).1.Handled = true ∧
    (Server.ServeHTTP cServer2 freshWriter "GET" "/html" []).body
      = [Chunk.raw "<h1>Hi</h1>", Chunk.json ⟨true, "HTML written", none, 200⟩] := by decide

/-- C6: once the Handled flag is true every write-style helper leaves the
whole context, writer included, unchanged; and every helper either leaves
the writer untouched or returns with the Handled flag set, so the first
written response stays intact across later helper invocations. -/
theorem handled_flag_write_guard (c : Ctx) (code : Int)
    (ct bodyStr s html data loc fp message : String) (details : Option String)
    (success : Bool) (fs : String → Option String) (detect : String → String) :
    (c.Handled = true →
      c.writeResponse code ct bodyStr = c ∧
      (Ctx.StringResp c code s).1 = c ∧
      (Ctx.HTML c code html).1 = c ∧
      (Ctx.Blob c code data ct).1 = c ∧
      (Ctx.JSON c success message details code).1 = c ∧
      (Ctx.ErrorJSON c message details code).1 = c ∧
      (Ctx.Redirect c code loc).1 = c ∧
      (Ctx.File fs detect c fp).1 = c) ∧
    ((c.writeResponse code ct bodyStr).Writer = c.Writer
        ∨ (c.writeResponse code ct bodyStr).Handled = true) ∧
    ((Ctx.StringResp c code s).1.Writer = c.Writer
        ∨ (Ctx.StringResp c code s).1.Handled = true) ∧
    ((Ctx.HTML c code html).1.Writer = c.Writer ∨ (Ctx.HTML c code html).1.Handled = true) ∧
    ((Ctx.Blob c code data ct).1.Writer = c.Writer
        ∨ (Ctx.Blob c code data ct).1.Handled = true) ∧
    ((Ctx.JSON c success message details code).1.Writer = c.Writer
        ∨ (Ctx.JSON c success message details code).1.Handled = true) ∧
    ((Ctx.ErrorJSON c message details code).1.Writer = c.Writer
        ∨ (Ctx.ErrorJSON c message details code).1.Handled = true) ∧
    ((Ctx.Redirect c code loc).1.Writer = c.Writer
        ∨ (Ctx.Redirect c code loc).1.Handled = true) ∧
    ((Ctx.File fs detect c fp).1.Writer = c.Writer
        ∨ (Ctx.File fs detect c fp).1.Handled = true) := by
  by_cases h : c.Handled
  · refine ⟨fun _ => ?_, ?_, ?_, ?_, ?_, ?_, ?_, ?_, ?_⟩
    · refine ⟨?_, ?_, ?_, ?_, ?_, ?_, ?_, ?_⟩ <;>
        simp [Ctx.writeResponse, Ctx.StringResp, Ctx.HTML, Ctx.Blob, Ctx.JSON, Ctx.ErrorJSON,
          Ctx.Redirect, Ctx.File, h]
    all_goals
      left
      simp [Ctx.writeResponse, Ctx.StringResp, Ctx.HTML, Ctx.Blob, Ctx.JSON, Ctx.ErrorJSON,
        Ctx.Redirect, Ctx.File, h]
  · refine ⟨fun hc => absurd hc h, ?_, ?_, ?_, ?_, ?_, ?_, ?_, ?_⟩
    · right
      simp [Ctx.writeResponse, h]
    · right
      simp [Ctx.StringResp, Ctx.writeResponse, h]
    · right
      simp [Ctx.HTML, Ctx.writeResponse, h]
    · right
      simp [Ctx.Blob, Ctx.writeResponse, h]
    · right
      simp [Ctx.JSON, h]
    · right
      simp [Ctx.ErrorJSON, h]
    · right
      simp [Ctx.Redirect, h]
    · cases hfs : fs fp with
      | none =>
          left
          simp [Ctx.File, h, hfs]
      | some data2 =>
          right
          simp [Ctx.File, Ctx.writeResponse, h, hfs]

/-- C6 (witness): on an already handled context the string and JSON
helpers leave the context unchanged. -/
theorem handled_flag_write_guard_witness :
    (Ctx.StringResp handledCtx 200 "x").1 = handledCtx ∧
    (Ctx.JSON handledCtx true "ok" none 200).1 = handledCtx :=
  ⟨((handled_flag_write_guard handledCtx 200 "ct" "b" "x" "h" "d" "l" "f" "m" none true
      (fun _ => none) (fun _ => "t")).1 rfl).2.1,
    ((handled_flag_write_guard handledCtx 200 "ct" "b" "x" "h" "d" "l" "f" "m" none true
      (fun _ => none) (fun _ => "t")).1 rfl).2.2.2.2.1⟩

/-- C7: when the wrapped handler panics with the context not yet handled
at panic time, Recovery returns no response and performs exactly one 500
write, an HTML page when the Accept header contains text/html and a JSON
envelope whose details embed the panic text otherwise; when the context
is already handled at panic time, Recovery returns the panic-time context
unchanged, writing nothing. -/
theorem Recovery_panic_contract (next : HandlerFunc) (c c' : Ctx) (v : String)
    (hnext : next c = (c', Outcome.panicked v)) :
    (c'.Handled = true → Recovery next c = (c', Outcome.ok none)) ∧
    (c'.Handled = false →
      (Recovery next c).2 = Outcome.ok none ∧
      (strContains (mapGet c'.ReqHeaders "Accept") "text/html" = true →
        (Recovery next c).1.Writer =
          ((c'.Writer.setHeader "Content-Type" "text/html").writeHeader 500).write
            (Chunk.raw "<h1>500 Internal Server Error</h1>")) ∧
      (strContains (mapGet c'.ReqHeaders "Accept") "text/html" = false →
        (Recovery next c).1.Writer =
          ((c'.Writer.setHeader "Content-Type" "application/json").writeHeader 500).write
            (Chunk.json ⟨false, "Internal Server Error", some v, 500⟩))) := by
  constructor
  · intro hh
    simp [Recovery, hnext, hh]
  · intro hh
    refine ⟨?_, ?_, ?_⟩
    · cases hacc : strContains (mapGet c'.ReqHeaders "Accept") "text/html" <;>
        simp [Recovery, hnext, hh, hacc, Ctx.HTML, Ctx.writeResponse, Ctx.JSONResp]
    · intro hacc
      simp [Recovery, hnext, hh, hacc, Ctx.HTML, Ctx.writeResponse]
    · intro hacc
      simp [Recovery, hnext, hh, hacc, Ctx.JSONResp]

/-- C7 (witness): a panic with an empty Accept header on a fresh context
produces the single 500 JSON write embedding the panic text. -/
theorem Recovery_panic_contract_witness :
    (Recovery panicHandler freshCtx).2 = Outcome.ok none ∧
    (Recovery panicHandler freshCtx).1.Writer =
      ((freshWriter.setHeader "Content-Type" "application/json").writeHeader 500).write
        (Chunk.json ⟨false, "Internal Server Error", some "boom", 500⟩) :=
  ⟨((Recovery_panic_contract panicHandler freshCtx freshCtx "boom" rfl).2 rfl).1,
    ((Recovery_panic_contract panicHandler freshCtx freshCtx "boom" rfl).2 rfl).2.2
      (by decide)⟩

/-- C3 (counterexample): with global tag middlewares A, B and group tag
middleware C, a request to the grouped route produces the entry trace
C, A, B, handler — not the claimed A, B, C, handler: the group
middlewares wrap outermost. -/
theorem group_middleware_order_counterexample :
    (Server.ServeHTTP cServer3 freshWriter "GET" "/api/t" []).body
      = [Chunk.raw "in:C", Chunk.raw "in:A", Chunk.raw "in:B", Chunk.raw "h",
          Chunk.raw "out:B", Chunk.raw "out:A", Chunk.raw "out:C"] ∧
    ¬ (Server.ServeHTTP cServer3 freshWriter "GET" "/api/t" []).body
      = [Chunk.raw "in:A", Chunk.raw "in:B", Chunk.raw "in:C", Chunk.raw "h",
          Chunk.raw "out:C", Chunk.raw "out:B", Chunk.raw "out:A"] := by decide

/-- C3 (amended): for a route registered through a group, the composed
chain nests the group middlewares outermost and the global middlewares
inside them, each block in registration order: a request observes entry
order group middlewares, then global middlewares, then the handler, and
the reverse on exit. -/
theorem group_middleware_order (gNames grNames : List String) (w : RespWriter) :
    (Server.ServeHTTP
        (GroupM.Handle ⟨"/api", grNames.map tagMW⟩ ⟨⟨[]⟩, gNames.map tagMW, []⟩ "GET" "/t"
          tagHandler)
        w "GET" "/api/t" []).body
      = w.body ++ (grNames.map fun n => Chunk.raw ("in:" ++ n))
          ++ (gNames.map fun n => Chunk.raw ("in:" ++ n))
          ++ [Chunk.raw "h"]
          ++ (gNames.reverse.map fun n => Chunk.raw ("out:" ++ n))
          ++ (grNames.reverse.map fun n => Chunk.raw ("out:" ++ n)) := by
  have htag : ∀ c : Ctx, (tagHandler c).1.Writer.body = c.Writer.body ++ [Chunk.raw "h"]
      ∧ (tagHandler c).2 = Outcome.ok none := fun c => ⟨write_body _ _, rfl⟩
  have hinner := tagChain gNames tagHandler [Chunk.raw "h"] htag
  have houter := tagChain grNames (applyReversed (gNames.map tagMW) tagHandler)
      ((gNames.map fun n => Chunk.raw ("in:" ++ n)) ++ [Chunk.raw "h"]
        ++ (gNames.reverse.map fun n => Chunk.raw ("out:" ++ n)))
      (fun c => ⟨by rw [(hinner c).1]; simp [List.append_assoc], (hinner c).2⟩)
  have hfind : (GroupM.Handle ⟨"/api", grNames.map tagMW⟩ ⟨⟨[]⟩, gNames.map tagMW, []⟩
        "GET" "/t" tagHandler).router.FindHandler "GET" "/api/t"
      = (some (applyReversed (grNames.map tagMW) (applyReversed (gNames.map tagMW) tagHandler)),
          some []) := rfl
  rw [ServeHTTP_run _ w "GET" "/api/t" [] _ [] hfind rfl]
  obtain ⟨hb, ho⟩ := houter ⟨w, "GET", "/api/t", [], some [], false⟩
  rcases hcc : (applyReversed (grNames.map tagMW) (applyReversed (gNames.map tagMW) tagHandler))
      ⟨w, "GET", "/api/t", [], some [], false⟩ with ⟨c', out⟩
  rw [hcc] at hb ho
  dsimp only at hb ho
  subst ho
  have hfinal : c'.Writer.body
      = w.body ++ (grNames.map fun n => Chunk.raw ("in:" ++ n))
          ++ (gNames.map fun n => Chunk.raw ("in:" ++ n))
          ++ [Chunk.raw "h"]
          ++ (gNames.reverse.map fun n => Chunk.raw ("out:" ++ n))
          ++ (grNames.reverse.map fun n => Chunk.raw ("out:" ++ n)) := by
    rw [hb]
    simp [List.append_assoc]
  exact hfinal
